import Mathlib

/-!
Shallow embedding of the repository's HTTP server code
(`src/app-cache/gen/https/deno.land/db4a01bf...js`, a vendored copy of
Deno std 0.140.0 `http/server.ts`) and of the application entry module
(`src/unnamed/part_000`).

The server is single-threaded cooperative (event-loop) code; state is
threaded explicitly, with the externally observable side effects
(backoff delays awaited, listener/connection close calls, console
output) recorded in traces.  The un-awaited dispatches (`#respond`,
`#serveHttp`) are sequentialised: each dispatch's state effects are
applied before the next iteration, one admissible cooperative schedule.
-/

/-- Error taxonomy used by the accept loop and the public API
(`Deno.errors.*` plus the `Deno.errors.Http("Server closed")` error). -/
inductive DenoError
  | BadResource
  | InvalidData
  | UnexpectedEof
  | ConnectionReset
  | NotConnected
  | AddrInUse
  | Http (msg : String)
  | Other (tag : Nat)
deriving DecidableEq, Repr

/-- Message of the error thrown by post-close operations (line 3). -/
def ERROR_SERVER_CLOSED : String := "Server closed"

/-- Default port for serving HTTP (line 4). -/
def HTTP_PORT : Nat := 80

/-- Default port for serving HTTPS (line 5). -/
def HTTPS_PORT : Nat := 443

/-- Initial backoff delay of 5ms following a temporary accept failure (line 6). -/
def INITIAL_ACCEPT_BACKOFF_DELAY : Nat := 5

/-- Max backoff delay of 1s following a temporary accept failure (line 7). -/
def MAX_ACCEPT_BACKOFF_DELAY : Nat := 1000

/-- An HTTP response: only status and body are relevant to the embedded code. -/
structure Response where
  status : Nat
  body : String
deriving DecidableEq, Repr

/-- The `Server` class state: the `#closed` flag and the two tracking
sets `#listeners` / `#httpConnections` (lines 9-15), with the JS `Set`s
represented as duplicate-free insertion-ordered lists, plus the
constructor-stored `#port` / `#host` configuration (lines 36-37).
Listeners and connections are identified by numeric ids. -/
structure Server where
  closed : Bool
  listeners : List Nat
  httpConnections : List Nat
  port : Option Nat
  hostname : Option String
deriving DecidableEq, Repr

/-- Externally observable side effects of the server code. -/
inductive Ev
  | delayAwait (ms : Nat)
  | listenerClosed (id : Nat)
  | connClosed (id : Nat)
deriving DecidableEq, Repr

/-- `Set.add`: appends iff the element is absent (JS sets are insertion ordered). -/
def setAdd (l : List Nat) (a : Nat) : List Nat :=
  if a ∈ l then l else l ++ [a]

/-- JS falsiness of the optional numeric `acceptBackoffDelay` variable:
`undefined` and `0` are falsy. -/
def jsFalsyNat : Option Nat → Bool
  | none => true
  | some v => v = 0

/-- One update of `acceptBackoffDelay` on a transient accept failure
(lines 276-283): set to the initial delay if unset, else double, then
clamp at the maximum. -/
def backoffUpdate (d : Option Nat) : Nat :=
  let d1 := if jsFalsyNat d then INITIAL_ACCEPT_BACKOFF_DELAY else 2 * d.getD 0
  if MAX_ACCEPT_BACKOFF_DELAY ≤ d1 then MAX_ACCEPT_BACKOFF_DELAY else d1

/-- Closed form for the backoff delay awaited at the i-th consecutive
transient failure (counting from 0). -/
def geomDelay (i : Nat) : Nat :=
  min (INITIAL_ACCEPT_BACKOFF_DELAY * 2 ^ i) MAX_ACCEPT_BACKOFF_DELAY

/-- The backoff variable's value before the i-th consecutive failure:
unset before the first, else the delay of the previous failure. -/
def backoffState : Nat → Option Nat
  | 0 => none
  | i + 1 => some (geomDelay i)

/-- The transient accept-error allow-list of the accept loop
(lines 270-272): listener closed, TLS handshake errors, reset, not
connected. -/
def isTransient : DenoError → Bool
  | .BadResource => true
  | .InvalidData => true
  | .UnexpectedEof => true
  | .ConnectionReset => true
  | .NotConnected => true
  | _ => false

/-- `Server.close` (lines 185-202): fails if already closed; otherwise
marks closed, closes every tracked listener (each wrapped in try/catch)
and clears the listener set, then closes every tracked connection via
`#closeHttpConn` and clears the connection set.  Returns the new state
and the close calls made, in iteration order. -/
def Server.close (s : Server) : Except DenoError (Server × List Ev) :=
  if s.closed then
    .error (.Http ERROR_SERVER_CLOSED)
  else
    .ok ({ s with closed := true, listeners := [], httpConnections := [] },
         s.listeners.map Ev.listenerClosed ++ s.httpConnections.map Ev.connClosed)

/-- `Server.#closeHttpConn` (lines 314-321): untracks the connection
(`Set.delete`, i.e. erase of the unique occurrence) and closes it
(try/catch, so the close call is always made exactly once here). -/
def closeHttpConn (s : Server) (cid : Nat) : Server × List Ev :=
  ({ s with httpConnections := s.httpConnections.erase cid }, [Ev.connClosed cid])

/-- Outcome of awaiting the user handler on one request. -/
inductive HandlerOutcome
  | ok (resp : Response)
  | raised (err : Nat)
deriving DecidableEq, Repr

/-- Outcome of `requestEvent.respondWith(response)`. -/
inductive SendOutcome
  | ok
  | fail
deriving DecidableEq, Repr

/-- The default `onError` handler installed by the constructor
(lines 39-44): a status-500 response with body "Internal Server Error". -/
def defaultOnError (_err : Nat) : Response :=
  { status := 500, body := "Internal Server Error" }

/-- Trace of one `Server.#respond` call. -/
structure RespondTrace where
  attempted : Response
  delivered : Bool
  finalState : Server
  events : List Ev
deriving Repr

/-- `Server.#respond` (lines 216-234): awaits the handler; if it
throws, the `onError` handler produces the response instead.  Then
attempts `respondWith`; if sending fails, closes and untracks exactly
the originating connection. -/
def Server.respond (onError : Nat → Response) (s : Server) (cid : Nat)
    (h : HandlerOutcome) (send : SendOutcome) : RespondTrace :=
  let response := match h with
    | .ok r => r
    | .raised e => onError e
  match send with
  | .ok => { attempted := response, delivered := true, finalState := s, events := [] }
  | .fail =>
    let (s1, evs) := closeHttpConn s cid
    { attempted := response, delivered := false, finalState := s1, events := evs }

/-- One awaited `httpConn.nextRequest()` of the per-connection loop:
either a request (with the scripted handler and send outcomes of its
dispatch), `null` (connection finished), or a thrown retrieval error. -/
inductive ReqEvent
  | req (h : HandlerOutcome) (send : SendOutcome)
  | finished
  | yieldErr
deriving DecidableEq, Repr

/-- Trace of `Server.#serveHttp` on one connection. -/
structure ServeHttpTrace where
  attempted : List Response
  finalState : Server
  events : List Ev
deriving Repr

/-- `Server.#serveHttp` (lines 240-257): while the server is not
closed, awaits the next request; a thrown retrieval error or a `null`
request breaks the loop, after which the connection is closed and
untracked.  Each request is dispatched via `#respond` (not awaited; its
effects are sequentialised before the next pull).  An exhausted script
means the loop is still suspended awaiting the next request. -/
def Server.serveHttp (onError : Nat → Response) (s : Server) (cid : Nat) :
    List ReqEvent → ServeHttpTrace
  | [] => { attempted := [], finalState := s, events := [] }
  | ev :: rest =>
    if s.closed then
      let (s1, evs) := closeHttpConn s cid
      { attempted := [], finalState := s1, events := evs }
    else
      match ev with
      | .finished =>
        let (s1, evs) := closeHttpConn s cid
        { attempted := [], finalState := s1, events := evs }
      | .yieldErr =>
        let (s1, evs) := closeHttpConn s cid
        { attempted := [], finalState := s1, events := evs }
      | .req h send =>
        let r := Server.respond onError s cid h send
        let t := Server.serveHttp onError r.finalState cid rest
        { attempted := r.attempted :: t.attempted,
          finalState := t.finalState,
          events := r.events ++ t.events }

/-- One awaited `listener.accept()` of the accept loop: a new
connection (with the outcome of the `Deno.serveHttp` upgrade), a thrown
accept error, or an external `close()` of the server occurring while the
loop is suspended at the await. -/
inductive AcceptOutcome
  | conn (cid : Nat) (upgradeOk : Bool)
  | err (e : DenoError)
  | externalClose
deriving DecidableEq, Repr

/-- How the accept loop ended. -/
inductive AcceptResult
  | closedExit
  | fatal (e : DenoError)
  | scriptEnd
deriving DecidableEq, Repr

/-- Trace of `Server.#accept` on one listener: the backoff delays
awaited, how the loop ended, the final state, the final value of the
`acceptBackoffDelay` variable, and the close calls made. -/
structure AcceptTrace where
  delays : List Nat
  result : AcceptResult
  finalState : Server
  finalBackoff : Option Nat
  events : List Ev
deriving Repr

/-- `Server.#accept` (lines 262-309): while the server is not closed,
awaits a connection.  A transient accept error (per `isTransient`)
updates the backoff delay, awaits it, and retries; any other accept
error is rethrown.  On a successful accept the backoff delay is reset
to unset, the connection is upgraded (a failed upgrade skips to the
next accept) and tracked, and its request loop is started un-awaited.
An exhausted script means the loop is still suspended at the accept. -/
def acceptLoop (s : Server) (d : Option Nat) : List AcceptOutcome → AcceptTrace
  | [] => { delays := [], result := .scriptEnd, finalState := s, finalBackoff := d, events := [] }
  | ev :: rest =>
    if s.closed then
      { delays := [], result := .closedExit, finalState := s, finalBackoff := d, events := [] }
    else
      match ev with
      | .err e =>
        if isTransient e then
          let d1 := backoffUpdate d
          let t := acceptLoop s (some d1) rest
          { t with delays := d1 :: t.delays }
        else
          { delays := [], result := .fatal e, finalState := s, finalBackoff := d, events := [] }
      | .conn cid ok =>
        if ok then
          let s1 := { s with httpConnections := setAdd s.httpConnections cid }
          acceptLoop s1 none rest
        else
          acceptLoop s none rest
      | .externalClose =>
        match Server.close s with
        | .ok (s1, evs) =>
          let t := acceptLoop s1 d rest
          { t with events := evs ++ t.events }
        | .error _ => acceptLoop s d rest

/-- Trace of a `Server.serve` call. -/
structure ServeTrace where
  result : Except DenoError Unit
  entryState : Server
  finalState : Server
  events : List Ev
deriving Repr

/-- The state on which `serve` starts its accept loop: the passed
listener tracked (line 81, `Set.add`). -/
def serveEntry (s : Server) (lid : Nat) : Server :=
  { s with listeners := setAdd s.listeners lid }

/-- `Server.serve` (lines 77-92): throws the server-closed error if
already closed; otherwise tracks the listener, runs the accept loop,
and in a `finally` untracks the listener and closes it (try/catch). -/
def Server.serve (s : Server) (lid : Nat) (script : List AcceptOutcome) : ServeTrace :=
  if s.closed then
    { result := .error (.Http ERROR_SERVER_CLOSED), entryState := s, finalState := s, events := [] }
  else
    let s1 := serveEntry s lid
    let t := acceptLoop s1 none script
    let s2 := { t.finalState with listeners := t.finalState.listeners.erase lid }
    { result := match t.result with
        | .fatal e => .error e
        | _ => .ok ()
      entryState := s1
      finalState := s2
      events := t.events ++ [Ev.listenerClosed lid] }

/-- Trace of a `Server.listenAndServe` / `listenAndServeTls` call. -/
structure ListenTrace where
  result : Except DenoError Unit
  finalState : Server
  didBind : Bool
  boundPort : Option Nat
  boundHost : Option String
  events : List Ev
deriving Repr

/-- `Server.listenAndServe` (lines 122-132): throws the server-closed
error (before any listener is bound) if already closed; otherwise binds
a TCP listener on the configured port (default 80) and hostname
(default "0.0.0.0") and serves it. -/
def Server.listenAndServe (s : Server) (newLid : Nat) (script : List AcceptOutcome) :
    ListenTrace :=
  if s.closed then
    { result := .error (.Http ERROR_SERVER_CLOSED), finalState := s,
      didBind := false, boundPort := none, boundHost := none, events := [] }
  else
    let port := s.port.getD HTTP_PORT
    let host := s.hostname.getD "0.0.0.0"
    let t := Server.serve s newLid script
    { result := t.result, finalState := t.finalState,
      didBind := true, boundPort := some port, boundHost := some host, events := t.events }

/-- `Server.listenAndServeTls` (lines 168-180): throws the
server-closed error (before any listener is bound) if already closed;
otherwise binds a TLS listener on the configured port (default 443) and
hostname (default "0.0.0.0") and serves it. -/
def Server.listenAndServeTls (s : Server) (_certFile _keyFile : String)
    (newLid : Nat) (script : List AcceptOutcome) : ListenTrace :=
  if s.closed then
    { result := .error (.Http ERROR_SERVER_CLOSED), finalState := s,
      didBind := false, boundPort := none, boundHost := none, events := [] }
  else
    let port := s.port.getD HTTPS_PORT
    let host := s.hostname.getD "0.0.0.0"
    let t := Server.serve s newLid script
    { result := t.result, finalState := t.finalState,
      didBind := true, boundPort := some port, boundHost := some host, events := t.events }

/-- The operations of the `Server` class, for stating state invariants. -/
inductive Op
  | closeOp
  | serveOp (lid : Nat) (script : List AcceptOutcome)
  | listenAndServeOp (lid : Nat) (script : List AcceptOutcome)
  | listenAndServeTlsOp (certFile keyFile : String) (lid : Nat) (script : List AcceptOutcome)
  | respondOp (cid : Nat) (h : HandlerOutcome) (send : SendOutcome)
  | serveHttpOp (cid : Nat) (reqs : List ReqEvent)

/-- The state reached by running one operation. -/
def applyOp (op : Op) (s : Server) : Server :=
  match op with
  | .closeOp =>
    match Server.close s with
    | .ok (s1, _) => s1
    | .error _ => s
  | .serveOp lid script => (Server.serve s lid script).finalState
  | .listenAndServeOp lid script => (Server.listenAndServe s lid script).finalState
  | .listenAndServeTlsOp cf kf lid script =>
    (Server.listenAndServeTls s cf kf lid script).finalState
  | .respondOp cid h send => (Server.respond defaultOnError s cid h send).finalState
  | .serveHttpOp cid reqs => (Server.serveHttp defaultOnError s cid reqs).finalState

/-- JS errors relevant to evaluating the entry module. -/
inductive JsError
  | referenceError (name : String)
deriving DecidableEq, Repr

/-- Top-level statements of the entry module, at the granularity needed
to evaluate it: an import binding names, `const x = new C()` (which
resolves `C` at evaluation time), `const f = (...) => ...` (whose body
is not evaluated at definition time), and a call statement resolving
the callee and its argument references. -/
inductive Stmt
  | importNames (names : List String)
  | constNew (lhs className : String)
  | constFunc (lhs : String)
  | callStmt (fname : String) (args : List String)
deriving DecidableEq, Repr

/-- Trace of evaluating a module: the result, the calls actually
performed, and the final environment. -/
structure ModuleTrace where
  result : Except JsError Unit
  calls : List String
  env : List String
deriving Repr

/-- Sequential evaluation of a module's statements: each statement runs
only if all previous ones succeeded; an unresolvable identifier throws
a `ReferenceError` and aborts evaluation. -/
def evalStmts (env : List String) (calls : List String) : List Stmt → ModuleTrace
  | [] => { result := .ok (), calls := calls, env := env }
  | st :: rest =>
    match st with
    | .importNames ns => evalStmts (env ++ ns) calls rest
    | .constNew x c =>
      if env.contains c then evalStmts (env ++ [x]) calls rest
      else { result := .error (.referenceError c), calls := calls, env := env }
    | .constFunc f => evalStmts (env ++ [f]) calls rest
    | .callStmt f args =>
      if env.contains f then
        if args.all env.contains then evalStmts env (calls ++ [f]) rest
        else { result := .error (.referenceError (args.filter (fun a => !env.contains a)).headI),
               calls := calls, env := env }
      else { result := .error (.referenceError f), calls := calls, env := env }

/-- The globals available to the entry module in its runtime (neither
`Application` nor `Session` is among them, and neither is imported). -/
def runtimeGlobals : List String :=
  ["console", "Response", "Request", "Deno", "fetch", "setTimeout",
   "clearTimeout", "Promise", "JSON", "URL"]

/-- The entry module `src/unnamed/part_000`: import `serve`;
`const app = new Application();`, `const session = new Session();`,
`const handleRequest = async (request) => ...;`,
`serve(handleRequest, { port: 7777 });`. -/
def entryModule : List Stmt :=
  [ Stmt.importNames ["serve"],
    Stmt.constNew "app" "Application",
    Stmt.constNew "session" "Session",
    Stmt.constFunc "handleRequest",
    Stmt.callStmt "serve" ["handleRequest"] ]

/-- Evaluation of the entry module from the runtime globals. -/
def evalEntryModule : ModuleTrace :=
  evalStmts runtimeGlobals [] entryModule

/-- The options object passed to the module-level `serve` function:
optional `port` and `hostname`, and whether the `onListen` key is
present in the object (line 448 tests key presence, not its value). -/
structure ServeOptions where
  port : Option Nat
  hostname : Option String
  onListenPresent : Bool
deriving DecidableEq, Repr

/-- `hostnameForDisplay` (lines 385-390): "0.0.0.0" displays as
"localhost". -/
def hostnameForDisplay (hostname : String) : String :=
  if hostname = "0.0.0.0" then "localhost" else hostname

/-- Trace of one call to the module-level `serve` function. -/
structure TopServeTrace where
  bindHost : String
  bindPort : Nat
  messageEmitted : Bool
  message : Option String
  result : Except DenoError Unit
deriving Repr

/-- The module-level `serve` function (lines 434-457): defaults the
port to 8000 and the hostname to "0.0.0.0", constructs a `Server`, and
invokes `listenAndServe` without awaiting it.  `listenAndServe`'s
synchronous prefix attempts the bind; being `async`, a bind failure
rejects the returned promise rather than throwing, so control reaches
the message step in either case: if the options contain an `onListen`
key the default log is suppressed, otherwise `Listening on ...` is
printed.  The promise is then awaited, surfacing any bind failure. -/
def serve (options : ServeOptions) (bindOk : Bool) (newLid : Nat)
    (script : List AcceptOutcome) : TopServeTrace :=
  let port := options.port.getD 8000
  let hostname := options.hostname.getD "0.0.0.0"
  let server : Server :=
    { closed := false, listeners := [], httpConnections := [],
      port := some port, hostname := some hostname }
  let bindPort := server.port.getD HTTP_PORT
  let bindHost := server.hostname.getD "0.0.0.0"
  let emitted := !options.onListenPresent
  let h := hostnameForDisplay hostname
  let msg := if emitted then some s!"Listening on http://{h}:{port}/" else none
  if bindOk then
    let t := Server.listenAndServe server newLid script
    { bindHost := bindHost, bindPort := bindPort, messageEmitted := emitted,
      message := msg, result := t.result }
  else
    { bindHost := bindHost, bindPort := bindPort, messageEmitted := emitted,
      message := msg, result := .error .AddrInUse }

/-- The delays of the first `n` consecutive backoffs starting at index `i`. -/
def geomFrom : Nat → Nat → List Nat
  | 0, _ => []
  | n + 1, i => geomDelay i :: geomFrom n (i + 1)

/-- An accept-loop event that neither throws a fatal error nor closes
the server: a transient error or an accepted connection. -/
def evBenign : AcceptOutcome → Bool
  | .err e => isTransient e
  | .conn _ _ => true
  | .externalClose => false

/-- An accept-loop event that throws a non-transient error. -/
def evFatal : AcceptOutcome → Bool
  | .err e => !isTransient e
  | _ => false

theorem backoffUpdate_backoffState : ∀ i, backoffUpdate (backoffState i) = geomDelay i
  | 0 => by decide
  | i + 1 => by
    have h1 : 1 ≤ 2 ^ i := Nat.one_le_two_pow
    have h2 : (2 : Nat) ^ (i + 1) = 2 ^ i * 2 := pow_succ 2 i
    simp only [backoffState, backoffUpdate, jsFalsyNat, geomDelay,
      INITIAL_ACCEPT_BACKOFF_DELAY, MAX_ACCEPT_BACKOFF_DELAY, Option.getD_some, h2,
      decide_eq_true_eq]
    generalize 2 ^ i = a at h1 ⊢
    split
    · omega
    · split <;> omega

theorem acceptLoop_cons_closed (s : Server) (hc : s.closed = true)
    (d : Option Nat) (ev : AcceptOutcome) (rest : List AcceptOutcome) :
    acceptLoop s d (ev :: rest)
      = { delays := [], result := .closedExit, finalState := s,
          finalBackoff := d, events := [] } := by
  simp [acceptLoop, hc]

theorem acceptLoop_cons_err_transient (s : Server) (hc : s.closed = false)
    (d : Option Nat) (e : DenoError) (he : isTransient e = true)
    (rest : List AcceptOutcome) :
    acceptLoop s d (AcceptOutcome.err e :: rest)
      = { acceptLoop s (some (backoffUpdate d)) rest with
          delays := backoffUpdate d
            :: (acceptLoop s (some (backoffUpdate d)) rest).delays } := by
  simp [acceptLoop, hc, he]

theorem acceptLoop_cons_err_fatal (s : Server) (hc : s.closed = false)
    (d : Option Nat) (e : DenoError) (he : isTransient e = false)
    (rest : List AcceptOutcome) :
    acceptLoop s d (AcceptOutcome.err e :: rest)
      = { delays := [], result := .fatal e, finalState := s,
          finalBackoff := d, events := [] } := by
  simp [acceptLoop, hc, he]

theorem acceptLoop_cons_conn (s : Server) (hc : s.closed = false)
    (d : Option Nat) (cid : Nat) (ok : Bool) (rest : List AcceptOutcome) :
    acceptLoop s d (AcceptOutcome.conn cid ok :: rest)
      = if ok then
          acceptLoop { s with httpConnections := setAdd s.httpConnections cid } none rest
        else
          acceptLoop s none rest := by
  cases ok <;> simp [acceptLoop, hc]

theorem acceptLoop_cons_externalClose (s : Server) (hc : s.closed = false)
    (d : Option Nat) (rest : List AcceptOutcome) :
    acceptLoop s d (AcceptOutcome.externalClose :: rest)
      = { acceptLoop { s with closed := true, listeners := [], httpConnections := [] } d rest with
          events := (s.listeners.map Ev.listenerClosed ++ s.httpConnections.map Ev.connClosed)
            ++ (acceptLoop { s with closed := true, listeners := [], httpConnections := [] } d rest).events } := by
  simp [acceptLoop, hc, Server.close]

theorem acceptLoop_transient_chain (es : List DenoError)
    (h : ∀ e ∈ es, isTransient e = true) :
    ∀ (s : Server), s.closed = false → ∀ (i : Nat) (rest : List AcceptOutcome),
    acceptLoop s (backoffState i) (es.map AcceptOutcome.err ++ rest)
      = { acceptLoop s (backoffState (i + es.length)) rest with
          delays := geomFrom es.length i
            ++ (acceptLoop s (backoffState (i + es.length)) rest).delays } := by
  induction es with
  | nil => intro s hc i rest; rfl
  | cons e es ih =>
    intro s hc i rest
    have he : isTransient e = true := h e (List.mem_cons_self e es)
    have hes : ∀ x ∈ es, isTransient x = true := fun x hx => h x (List.mem_cons_of_mem e hx)
    have hstep := acceptLoop_cons_err_transient s hc (backoffState i) e he
      (es.map AcceptOutcome.err ++ rest)
    rw [List.map_cons, List.cons_append, hstep, backoffUpdate_backoffState,
      show (some (geomDelay i) : Option Nat) = backoffState (i + 1) from rfl,
      ih hes s hc (i + 1) rest,
      show i + 1 + es.length = i + (e :: es).length by simp [List.length_cons]; omega]
    rfl

theorem geomFrom_eq_map_range : ∀ (n i : Nat),
    geomFrom n i = (List.range n).map fun j => geomDelay (i + j)
  | 0, _ => rfl
  | n + 1, i => by
    rw [List.range_succ_eq_map, List.map_cons, List.map_map]
    show geomDelay i :: geomFrom n (i + 1) = geomDelay (i + 0) :: _
    rw [Nat.add_zero, geomFrom_eq_map_range n (i + 1)]
    congr 1
    apply List.map_congr_left
    intro j _
    simp only [Function.comp_apply]
    congr 1
    omega

theorem acceptLoop_transient_delays (es : List DenoError)
    (h : ∀ e ∈ es, isTransient e = true) (s : Server) (hc : s.closed = false)
    (rest : List AcceptOutcome) :
    (acceptLoop s none (es.map AcceptOutcome.err ++ rest)).delays
      = geomFrom es.length 0 ++ (acceptLoop s (backoffState es.length) rest).delays := by
  rw [show (none : Option Nat) = backoffState 0 from rfl,
    acceptLoop_transient_chain es h s hc 0 rest]
  simp only [Nat.zero_add]

/-- C1: within one listener's accept loop, a run of consecutive
transient accept errors is awaited with backoff delays
5, 10, 20, ... doubling per consecutive failure and clamped at 1000 ms
(the i-th delay is `min (5 * 2 ^ i) 1000`); a successful accept resets
the backoff variable to unset, so a later run of transient errors
restarts the delays at 5 ms. -/
theorem accept_backoff_spec (s : Server) (hc : s.closed = false)
    (es1 es2 : List DenoError)
    (h1 : ∀ e ∈ es1, isTransient e = true)
    (h2 : ∀ e ∈ es2, isTransient e = true) (cid : Nat) :
    (acceptLoop s none (es1.map AcceptOutcome.err
        ++ AcceptOutcome.conn cid true :: es2.map AcceptOutcome.err)).delays
      = ((List.range es1.length).map fun i => min (5 * 2 ^ i) 1000)
        ++ ((List.range es2.length).map fun i => min (5 * 2 ^ i) 1000)
    ∧ (acceptLoop s none (es1.map AcceptOutcome.err
        ++ [AcceptOutcome.conn cid true])).finalBackoff = none := by
  have hcs1 : ({ s with httpConnections := setAdd s.httpConnections cid } : Server).closed
      = false := hc
  constructor
  · rw [acceptLoop_transient_delays es1 h1 s hc,
      acceptLoop_cons_conn s hc (backoffState es1.length) cid true (es2.map AcceptOutcome.err),
      if_pos rfl,
      ← List.append_nil (List.map AcceptOutcome.err es2),
      acceptLoop_transient_delays es2 h2 _ hcs1]
    rw [geomFrom_eq_map_range, geomFrom_eq_map_range]
    simp [geomDelay, INITIAL_ACCEPT_BACKOFF_DELAY, MAX_ACCEPT_BACKOFF_DELAY]
    rfl
  · rw [show (none : Option Nat) = backoffState 0 from rfl,
      acceptLoop_transient_chain es1 h1 s hc 0 [AcceptOutcome.conn cid true]]
    show (acceptLoop s (backoffState (0 + es1.length)) [AcceptOutcome.conn cid true]).finalBackoff
      = none
    rw [show (AcceptOutcome.conn cid true :: [])
        = AcceptOutcome.conn cid true :: ([] : List AcceptOutcome) from rfl,
      acceptLoop_cons_conn s hc (backoffState (0 + es1.length)) cid true [], if_pos rfl]
    rfl

/-- A concrete open server state used to instantiate the theorems. -/
def sOpen : Server :=
  { closed := false, listeners := [7], httpConnections := [3, 4],
    port := none, hostname := none }

theorem accept_backoff_spec_witness :
    (sOpen.closed = false
      ∧ (∀ e ∈ [DenoError.BadResource, DenoError.InvalidData], isTransient e = true)
      ∧ (∀ e ∈ [DenoError.ConnectionReset], isTransient e = true))
    ∧ ((acceptLoop sOpen none
          ([DenoError.BadResource, DenoError.InvalidData].map AcceptOutcome.err
            ++ AcceptOutcome.conn 1 true :: [DenoError.ConnectionReset].map AcceptOutcome.err)).delays
        = ((List.range [DenoError.BadResource, DenoError.InvalidData].length).map
            fun i => min (5 * 2 ^ i) 1000)
          ++ ((List.range [DenoError.ConnectionReset].length).map fun i => min (5 * 2 ^ i) 1000)
      ∧ (acceptLoop sOpen none
          ([DenoError.BadResource, DenoError.InvalidData].map AcceptOutcome.err
            ++ [AcceptOutcome.conn 1 true])).finalBackoff = none) :=
  ⟨⟨rfl, by decide, by decide⟩,
    accept_backoff_spec sOpen rfl [DenoError.BadResource, DenoError.InvalidData]
      [DenoError.ConnectionReset] (by decide) (by decide) 1⟩

/-- C2: evaluating the entry-point module throws a `ReferenceError` at
`new Application()` (neither `Application` nor `Session` is imported,
defined, or a runtime global), so the `serve(handleRequest, ...)` call
is never reached and no server is ever started. -/
theorem entry_module_never_serves :
    evalEntryModule.result = Except.error (JsError.referenceError "Application")
    ∧ evalEntryModule.calls = [] :=
  ⟨rfl, rfl⟩

theorem ev_listenerClosed_injective : Function.Injective Ev.listenerClosed := by
  intro a b h
  cases h
  rfl

theorem ev_connClosed_injective : Function.Injective Ev.connClosed := by
  intro a b h
  cases h
  rfl

/-- C3: when `close()` returns successfully, the tracked listener set
and the tracked connection set are left empty, and the close calls made
by `close()` hit each listener and each connection that was tracked at
the moment of the call exactly once. -/
theorem close_spec (s : Server) (hc : s.closed = false)
    (hl : s.listeners.Nodup) (hh : s.httpConnections.Nodup) :
    ∃ s1 evs, Server.close s = .ok (s1, evs)
      ∧ s1.listeners = [] ∧ s1.httpConnections = []
      ∧ (∀ l ∈ s.listeners, evs.count (Ev.listenerClosed l) = 1)
      ∧ (∀ c ∈ s.httpConnections, evs.count (Ev.connClosed c) = 1) := by
  refine ⟨{ s with closed := true, listeners := [], httpConnections := [] },
    s.listeners.map Ev.listenerClosed ++ s.httpConnections.map Ev.connClosed,
    by simp [Server.close, hc], rfl, rfl, ?_, ?_⟩
  · intro l hmem
    rw [List.count_append, List.count_map_of_injective _ _ ev_listenerClosed_injective,
      List.count_eq_one_of_mem hl hmem, List.count_eq_zero.mpr (by simp)]
  · intro c hmem
    rw [List.count_append, List.count_map_of_injective _ _ ev_connClosed_injective,
      List.count_eq_one_of_mem hh hmem, List.count_eq_zero.mpr (by simp)]

theorem close_spec_witness :
    (sOpen.closed = false ∧ sOpen.listeners.Nodup ∧ sOpen.httpConnections.Nodup)
    ∧ (∃ s1 evs, Server.close sOpen = .ok (s1, evs)
        ∧ s1.listeners = [] ∧ s1.httpConnections = []
        ∧ (∀ l ∈ sOpen.listeners, evs.count (Ev.listenerClosed l) = 1)
        ∧ (∀ c ∈ sOpen.httpConnections, evs.count (Ev.connClosed c) = 1)) :=
  ⟨⟨rfl, by decide, by decide⟩, close_spec sOpen rfl (by decide) (by decide)⟩

theorem respond_finalState_closed (onError : Nat → Response) (s : Server)
    (cid : Nat) (h : HandlerOutcome) (send : SendOutcome) :
    (Server.respond onError s cid h send).finalState.closed = s.closed := by
  cases send <;> rfl

theorem respond_finalState_listeners (onError : Nat → Response) (s : Server)
    (cid : Nat) (h : HandlerOutcome) (send : SendOutcome) :
    (Server.respond onError s cid h send).finalState.listeners = s.listeners := by
  cases send <;> rfl

theorem serveHttp_finalState_closed (onError : Nat → Response) :
    ∀ (reqs : List ReqEvent) (s : Server) (cid : Nat),
    (Server.serveHttp onError s cid reqs).finalState.closed = s.closed
  | [], _, _ => rfl
  | ev :: rest, s, cid => by
    by_cases hc : s.closed = true
    · simp [Server.serveHttp, hc, closeHttpConn]
    · rw [Bool.not_eq_true] at hc
      cases ev with
      | finished => simp [Server.serveHttp, hc, closeHttpConn]
      | yieldErr => simp [Server.serveHttp, hc, closeHttpConn]
      | req h send =>
        have ih := serveHttp_finalState_closed onError rest
          (Server.respond onError s cid h send).finalState cid
        simp [Server.serveHttp, hc, ih, respond_finalState_closed]

theorem acceptLoop_finalState_closed_of_closed (d : Option Nat) :
    ∀ (script : List AcceptOutcome) (s : Server), s.closed = true →
    (acceptLoop s d script).finalState = s
  | [], _, _ => rfl
  | ev :: rest, s, hc => by rw [acceptLoop_cons_closed s hc d ev rest]

theorem serve_of_closed (s : Server) (hc : s.closed = true)
    (lid : Nat) (script : List AcceptOutcome) :
    Server.serve s lid script
      = { result := .error (.Http ERROR_SERVER_CLOSED), entryState := s,
          finalState := s, events := [] } := by
  simp [Server.serve, hc]

theorem listenAndServe_of_closed (s : Server) (hc : s.closed = true)
    (lid : Nat) (script : List AcceptOutcome) :
    Server.listenAndServe s lid script
      = { result := .error (.Http ERROR_SERVER_CLOSED), finalState := s,
          didBind := false, boundPort := none, boundHost := none, events := [] } := by
  simp [Server.listenAndServe, hc]

theorem listenAndServeTls_of_closed (s : Server) (hc : s.closed = true)
    (cf kf : String) (lid : Nat) (script : List AcceptOutcome) :
    Server.listenAndServeTls s cf kf lid script
      = { result := .error (.Http ERROR_SERVER_CLOSED), finalState := s,
          didBind := false, boundPort := none, boundHost := none, events := [] } := by
  simp [Server.listenAndServeTls, hc]

/-- C4: once a server is closed, every later `close()` call fails with
the server-closed error, and no operation of the server resets the
closed flag: the closed state is irreversible. -/
theorem closed_irreversible (s : Server) (hc : s.closed = true) :
    Server.close s = .error (.Http ERROR_SERVER_CLOSED)
    ∧ ∀ op, (applyOp op s).closed = true := by
  refine ⟨by simp [Server.close, hc], ?_⟩
  intro op
  cases op with
  | closeOp => simp [applyOp, Server.close, hc]
  | serveOp lid script => simp [applyOp, serve_of_closed s hc, hc]
  | listenAndServeOp lid script => simp [applyOp, listenAndServe_of_closed s hc, hc]
  | listenAndServeTlsOp cf kf lid script =>
    simp [applyOp, listenAndServeTls_of_closed s hc, hc]
  | respondOp cid h send => simp [applyOp, respond_finalState_closed, hc]
  | serveHttpOp cid reqs => simp [applyOp, serveHttp_finalState_closed, hc]

/-- A concrete closed server state used to instantiate the theorems. -/
def sDone : Server :=
  { closed := true, listeners := [], httpConnections := [2],
    port := none, hostname := none }

theorem closed_irreversible_witness :
    sDone.closed = true
    ∧ (Server.close sDone = .error (.Http ERROR_SERVER_CLOSED)
        ∧ ∀ op, (applyOp op sDone).closed = true) :=
  ⟨rfl, closed_irreversible sDone rfl⟩

/-- C5: on a closed server, `serve` fails immediately with the
server-closed error without touching the state (so the passed listener
is never registered), and `listenAndServe` / `listenAndServeTls` fail
the same way before any listener is bound. -/
theorem serve_after_close (s : Server) (hc : s.closed = true)
    (lid : Nat) (script : List AcceptOutcome) (cf kf : String) :
    (Server.serve s lid script).result = .error (.Http ERROR_SERVER_CLOSED)
    ∧ (Server.serve s lid script).finalState = s
    ∧ (Server.serve s lid script).events = []
    ∧ (Server.listenAndServe s lid script).result = .error (.Http ERROR_SERVER_CLOSED)
    ∧ (Server.listenAndServe s lid script).didBind = false
    ∧ (Server.listenAndServeTls s cf kf lid script).result = .error (.Http ERROR_SERVER_CLOSED)
    ∧ (Server.listenAndServeTls s cf kf lid script).didBind = false := by
  rw [serve_of_closed s hc, listenAndServe_of_closed s hc,
    listenAndServeTls_of_closed s hc]
  exact ⟨rfl, rfl, rfl, rfl, rfl, rfl, rfl⟩

theorem serve_after_close_witness :
    sDone.closed = true
    ∧ ((Server.serve sDone 9 []).result = .error (.Http ERROR_SERVER_CLOSED)
      ∧ (Server.serve sDone 9 []).finalState = sDone
      ∧ (Server.serve sDone 9 []).events = []
      ∧ (Server.listenAndServe sDone 9 []).result = .error (.Http ERROR_SERVER_CLOSED)
      ∧ (Server.listenAndServe sDone 9 []).didBind = false
      ∧ (Server.listenAndServeTls sDone "c.crt" "k.key" 9 []).result
          = .error (.Http ERROR_SERVER_CLOSED)
      ∧ (Server.listenAndServeTls sDone "c.crt" "k.key" 9 []).didBind = false) :=
  ⟨rfl, serve_after_close sDone rfl 9 [] "c.crt" "k.key"⟩

theorem respond_ok_finalState (onError : Nat → Response) (s : Server)
    (cid : Nat) (h : HandlerOutcome) :
    (Server.respond onError s cid h SendOutcome.ok).finalState = s := rfl

theorem serveHttp_attempted_ok (onError : Nat → Response) :
    ∀ (hs : List HandlerOutcome) (s : Server), s.closed = false → ∀ (cid : Nat),
    (Server.serveHttp onError s cid (hs.map fun h => ReqEvent.req h SendOutcome.ok)).attempted
      = hs.map fun h => (Server.respond onError s cid h SendOutcome.ok).attempted
  | [], _, _, _ => rfl
  | h :: hs, s, hc, cid => by
    have ih := serveHttp_attempted_ok onError hs s hc cid
    simp only [List.map_cons, Server.serveHttp, hc, Bool.false_eq_true, if_false,
      respond_ok_finalState, ih]

/-- C6: when the handler raises, `#respond` substitutes the response
produced by the configured error handler (by default a status-500
"Internal Server Error" response) and sends it on the originating
exchange; the failure changes neither the closed flag nor the listener
set, and a connection whose requests are all answered with successful
sends has every request dispatched regardless of handler failures. -/
theorem handler_failure_isolated (onError : Nat → Response) (s : Server)
    (hc : s.closed = false) (cid e : Nat) (send : SendOutcome)
    (hs : List HandlerOutcome) :
    defaultOnError e = { status := 500, body := "Internal Server Error" }
    ∧ (Server.respond onError s cid (HandlerOutcome.raised e) send).attempted = onError e
    ∧ (Server.respond onError s cid (HandlerOutcome.raised e) SendOutcome.ok).delivered = true
    ∧ (Server.respond onError s cid (HandlerOutcome.raised e) send).finalState.closed = s.closed
    ∧ (Server.respond onError s cid (HandlerOutcome.raised e) send).finalState.listeners
        = s.listeners
    ∧ (Server.serveHttp onError s cid (hs.map fun h => ReqEvent.req h SendOutcome.ok)).attempted
        = hs.map fun h => (Server.respond onError s cid h SendOutcome.ok).attempted := by
  refine ⟨rfl, ?_, rfl, respond_finalState_closed onError s cid _ send,
    respond_finalState_listeners onError s cid _ send,
    serveHttp_attempted_ok onError hs s hc cid⟩
  cases send <;> rfl

theorem handler_failure_isolated_witness :
    sOpen.closed = false
    ∧ (defaultOnError 0 = { status := 500, body := "Internal Server Error" }
      ∧ (Server.respond defaultOnError sOpen 3 (HandlerOutcome.raised 0)
          SendOutcome.ok).attempted = defaultOnError 0
      ∧ (Server.respond defaultOnError sOpen 3 (HandlerOutcome.raised 0)
          SendOutcome.ok).delivered = true
      ∧ (Server.respond defaultOnError sOpen 3 (HandlerOutcome.raised 0)
          SendOutcome.ok).finalState.closed = sOpen.closed
      ∧ (Server.respond defaultOnError sOpen 3 (HandlerOutcome.raised 0)
          SendOutcome.ok).finalState.listeners = sOpen.listeners
      ∧ (Server.serveHttp defaultOnError sOpen 3
          ([HandlerOutcome.raised 0, HandlerOutcome.ok { status := 200, body := "ok" }].map
            fun h => ReqEvent.req h SendOutcome.ok)).attempted
          = [HandlerOutcome.raised 0, HandlerOutcome.ok { status := 200, body := "ok" }].map
              fun h => (Server.respond defaultOnError sOpen 3 h SendOutcome.ok).attempted) :=
  ⟨rfl, handler_failure_isolated defaultOnError sOpen rfl 3 0 SendOutcome.ok
    [HandlerOutcome.raised 0, HandlerOutcome.ok { status := 200, body := "ok" }]⟩

/-- C7: when sending a response fails, exactly the originating
connection is closed and removed from the tracking set: the close call
list is that one connection, it leaves the set (which shrinks by one),
every other connection's membership is unchanged, and the listener set
and closed flag are untouched. -/
theorem send_failure_closes_only_conn (onError : Nat → Response) (s : Server)
    (cid : Nat) (hmem : cid ∈ s.httpConnections) (hnd : s.httpConnections.Nodup)
    (h : HandlerOutcome) :
    (Server.respond onError s cid h SendOutcome.fail).events = [Ev.connClosed cid]
    ∧ (Server.respond onError s cid h SendOutcome.fail).finalState.httpConnections
        = s.httpConnections.erase cid
    ∧ cid ∉ (Server.respond onError s cid h SendOutcome.fail).finalState.httpConnections
    ∧ (Server.respond onError s cid h SendOutcome.fail).finalState.httpConnections.length + 1
        = s.httpConnections.length
    ∧ (∀ c, c ≠ cid →
        (c ∈ (Server.respond onError s cid h SendOutcome.fail).finalState.httpConnections
          ↔ c ∈ s.httpConnections))
    ∧ (Server.respond onError s cid h SendOutcome.fail).finalState.listeners = s.listeners
    ∧ (Server.respond onError s cid h SendOutcome.fail).finalState.closed = s.closed := by
  refine ⟨rfl, rfl, ?_, ?_, ?_, rfl, rfl⟩
  · show cid ∉ s.httpConnections.erase cid
    exact hnd.not_mem_erase
  · show (s.httpConnections.erase cid).length + 1 = s.httpConnections.length
    rw [List.length_erase_of_mem hmem]
    have : s.httpConnections.length ≠ 0 := by
      intro h0
      rw [List.length_eq_zero.mp h0] at hmem
      exact absurd hmem (List.not_mem_nil cid)
    omega
  · intro c hne
    show c ∈ s.httpConnections.erase cid ↔ _
    exact List.mem_erase_of_ne hne

theorem send_failure_closes_only_conn_witness :
    (3 ∈ sOpen.httpConnections ∧ sOpen.httpConnections.Nodup)
    ∧ ((Server.respond defaultOnError sOpen 3 (HandlerOutcome.ok { status := 200, body := "ok" })
          SendOutcome.fail).events = [Ev.connClosed 3]
      ∧ (Server.respond defaultOnError sOpen 3 (HandlerOutcome.ok { status := 200, body := "ok" })
          SendOutcome.fail).finalState.httpConnections = sOpen.httpConnections.erase 3
      ∧ 3 ∉ (Server.respond defaultOnError sOpen 3 (HandlerOutcome.ok { status := 200, body := "ok" })
          SendOutcome.fail).finalState.httpConnections
      ∧ (Server.respond defaultOnError sOpen 3 (HandlerOutcome.ok { status := 200, body := "ok" })
          SendOutcome.fail).finalState.httpConnections.length + 1
          = sOpen.httpConnections.length
      ∧ (∀ c, c ≠ 3 →
          (c ∈ (Server.respond defaultOnError sOpen 3
              (HandlerOutcome.ok { status := 200, body := "ok" })
              SendOutcome.fail).finalState.httpConnections
            ↔ c ∈ sOpen.httpConnections))
      ∧ (Server.respond defaultOnError sOpen 3 (HandlerOutcome.ok { status := 200, body := "ok" })
          SendOutcome.fail).finalState.listeners = sOpen.listeners
      ∧ (Server.respond defaultOnError sOpen 3 (HandlerOutcome.ok { status := 200, body := "ok" })
          SendOutcome.fail).finalState.closed = sOpen.closed) :=
  ⟨⟨by decide, by decide⟩,
    send_failure_closes_only_conn defaultOnError sOpen 3 (by decide) (by decide)
      (HandlerOutcome.ok { status := 200, body := "ok" })⟩

theorem acceptLoop_no_fatal :
    ∀ (script : List AcceptOutcome), (∀ ev ∈ script, evFatal ev = false) →
    ∀ (s : Server) (d : Option Nat) (e : DenoError),
    (acceptLoop s d script).result ≠ AcceptResult.fatal e
  | [], _, s, d, e => by simp [acceptLoop]
  | ev :: rest, h, s, d, e => by
    have hrest : ∀ x ∈ rest, evFatal x = false :=
      fun x hx => h x (List.mem_cons_of_mem _ hx)
    by_cases hc : s.closed = true
    · rw [acceptLoop_cons_closed s hc d ev rest]
      simp
    · rw [Bool.not_eq_true] at hc
      cases ev with
      | err e2 =>
        have hnf : evFatal (AcceptOutcome.err e2) = false := h _ (List.mem_cons_self _ _)
        have ht : isTransient e2 = true := by simpa [evFatal] using hnf
        rw [acceptLoop_cons_err_transient s hc d e2 ht rest]
        exact acceptLoop_no_fatal rest hrest s _ e
      | conn cid ok =>
        rw [acceptLoop_cons_conn s hc d cid ok rest]
        cases ok
        · simpa using acceptLoop_no_fatal rest hrest s none e
        · simpa using acceptLoop_no_fatal rest hrest
            { s with httpConnections := setAdd s.httpConnections cid } none e
      | externalClose =>
        rw [acceptLoop_cons_externalClose s hc d rest]
        exact acceptLoop_no_fatal rest hrest
          { s with closed := true, listeners := [], httpConnections := [] } d e

theorem acceptLoop_fatal_first :
    ∀ (pre : List AcceptOutcome), (∀ ev ∈ pre, evBenign ev = true) →
    ∀ (s : Server), s.closed = false → ∀ (d : Option Nat) (e : DenoError),
    isTransient e = false → ∀ (rest : List AcceptOutcome),
    (acceptLoop s d (pre ++ AcceptOutcome.err e :: rest)).result = AcceptResult.fatal e
    ∧ (acceptLoop s d (pre ++ AcceptOutcome.err e :: rest)).delays
        = (acceptLoop s d pre).delays
  | [], _, s, hc, d, e, he, rest => by
    rw [List.nil_append, acceptLoop_cons_err_fatal s hc d e he rest]
    exact ⟨rfl, rfl⟩
  | ev :: pre, h, s, hc, d, e, he, rest => by
    have hev : evBenign ev = true := h _ (List.mem_cons_self _ _)
    have hpre : ∀ x ∈ pre, evBenign x = true :=
      fun x hx => h x (List.mem_cons_of_mem _ hx)
    cases ev with
    | err e2 =>
      have ht : isTransient e2 = true := by simpa [evBenign] using hev
      have ih := acceptLoop_fatal_first pre hpre s hc (some (backoffUpdate d)) e he rest
      rw [List.cons_append, acceptLoop_cons_err_transient s hc d e2 ht,
        acceptLoop_cons_err_transient s hc d e2 ht pre]
      exact ⟨ih.1, by simp only [ih.2]⟩
    | conn cid ok =>
      rw [List.cons_append, acceptLoop_cons_conn s hc d cid ok,
        acceptLoop_cons_conn s hc d cid ok pre]
      cases ok
      · simpa using acceptLoop_fatal_first pre hpre s hc none e he rest
      · simpa using acceptLoop_fatal_first pre hpre
          { s with httpConnections := setAdd s.httpConnections cid } hc none e he rest
    | externalClose =>
      simp [evBenign] at hev

theorem serveEntry_closed (s : Server) (lid : Nat) :
    (serveEntry s lid).closed = s.closed := rfl

/-- C8: the accept loop's transient allow-list is exactly BadResource,
InvalidData, UnexpectedEof, ConnectionReset, NotConnected; a script of
allow-listed errors and accepted connections never makes the loop (or
`serve`) surface an error, while the first non-allow-listed accept
error terminates the loop immediately — no backoff is awaited for it
and nothing after it is consumed — and propagates out of `serve`. -/
theorem accept_error_taxonomy (s : Server) (hc : s.closed = false) (lid : Nat) :
    (∀ script d e, (∀ ev ∈ script, evFatal ev = false) →
      (acceptLoop s d script).result ≠ AcceptResult.fatal e)
    ∧ (∀ pre e rest d, (∀ ev ∈ pre, evBenign ev = true) → isTransient e = false →
        (acceptLoop s d (pre ++ AcceptOutcome.err e :: rest)).result = AcceptResult.fatal e
        ∧ (acceptLoop s d (pre ++ AcceptOutcome.err e :: rest)).delays
            = (acceptLoop s d pre).delays)
    ∧ (∀ script, (∀ ev ∈ script, evFatal ev = false) →
        (Server.serve s lid script).result = .ok ())
    ∧ (∀ pre e rest, (∀ ev ∈ pre, evBenign ev = true) → isTransient e = false →
        (Server.serve s lid (pre ++ AcceptOutcome.err e :: rest)).result = .error e) := by
  refine ⟨fun script d e hb => acceptLoop_no_fatal script hb s d e,
    fun pre e rest d hb he => acceptLoop_fatal_first pre hb s hc d e he rest,
    ?_, ?_⟩
  · intro script hb
    have hno := acceptLoop_no_fatal script hb (serveEntry s lid) none
    simp only [Server.serve, hc, Bool.false_eq_true, if_false]
  · intro pre e rest hb he
    have hcs : (serveEntry s lid).closed = false := hc
    have hf := (acceptLoop_fatal_first pre hb (serveEntry s lid) hcs none e he rest).1
    simp only [Server.serve, hc, Bool.false_eq_true, if_false, hf]

theorem accept_error_taxonomy_witness :
    sOpen.closed = false
    ∧ ((∀ script d e, (∀ ev ∈ script, evFatal ev = false) →
        (acceptLoop sOpen d script).result ≠ AcceptResult.fatal e)
      ∧ (∀ pre e rest d, (∀ ev ∈ pre, evBenign ev = true) → isTransient e = false →
          (acceptLoop sOpen d (pre ++ AcceptOutcome.err e :: rest)).result
              = AcceptResult.fatal e
          ∧ (acceptLoop sOpen d (pre ++ AcceptOutcome.err e :: rest)).delays
              = (acceptLoop sOpen d pre).delays)
      ∧ (∀ script, (∀ ev ∈ script, evFatal ev = false) →
          (Server.serve sOpen 7 script).result = .ok ())
      ∧ (∀ pre e rest, (∀ ev ∈ pre, evBenign ev = true) → isTransient e = false →
          (Server.serve sOpen 7 (pre ++ AcceptOutcome.err e :: rest)).result = .error e)) :=
  ⟨rfl, accept_error_taxonomy sOpen rfl 7⟩

theorem setAdd_nodup {l : List Nat} (h : l.Nodup) (a : Nat) : (setAdd l a).Nodup := by
  by_cases hm : a ∈ l
  · simpa [setAdd, hm] using h
  · simp [setAdd, hm, List.nodup_append, h]

theorem mem_setAdd (l : List Nat) (a : Nat) : a ∈ setAdd l a := by
  by_cases hm : a ∈ l <;> simp [setAdd, hm]

theorem acceptLoop_finalState_listeners :
    ∀ (script : List AcceptOutcome) (s : Server) (d : Option Nat),
    (acceptLoop s d script).finalState.listeners = s.listeners
    ∨ (acceptLoop s d script).finalState.listeners = []
  | [], _, _ => Or.inl rfl
  | ev :: rest, s, d => by
    by_cases hc : s.closed = true
    · rw [acceptLoop_cons_closed s hc d ev rest]
      exact Or.inl rfl
    · rw [Bool.not_eq_true] at hc
      cases ev with
      | err e =>
        by_cases ht : isTransient e = true
        · rw [acceptLoop_cons_err_transient s hc d e ht rest]
          exact acceptLoop_finalState_listeners rest s _
        · rw [Bool.not_eq_true] at ht
          rw [acceptLoop_cons_err_fatal s hc d e ht rest]
          exact Or.inl rfl
      | conn cid ok =>
        rw [acceptLoop_cons_conn s hc d cid ok rest]
        cases ok
        · simpa using acceptLoop_finalState_listeners rest s none
        · simpa using acceptLoop_finalState_listeners rest
            { s with httpConnections := setAdd s.httpConnections cid } none
      | externalClose =>
        rw [acceptLoop_cons_externalClose s hc d rest]
        rcases acceptLoop_finalState_listeners rest
            { s with closed := true, listeners := [], httpConnections := [] } d with h | h
        · exact Or.inr h
        · exact Or.inr h

/-- C9: `serve(listener)` on a non-closed server registers the listener
in the tracking set at entry (the accept loop starts on that state),
and on every exit path the listener is absent from the tracking set and
the last close call of the trace is the `finally` close of that
listener, before `serve` returns or rethrows. -/
theorem serve_listener_lifecycle (s : Server) (hc : s.closed = false)
    (hl : s.listeners.Nodup) (lid : Nat) (script : List AcceptOutcome) :
    (Server.serve s lid script).entryState = serveEntry s lid
    ∧ lid ∈ (Server.serve s lid script).entryState.listeners
    ∧ lid ∉ (Server.serve s lid script).finalState.listeners
    ∧ (Server.serve s lid script).events.getLast? = some (Ev.listenerClosed lid) := by
  have hentry : (Server.serve s lid script).entryState = serveEntry s lid := by
    simp [Server.serve, hc]
  refine ⟨hentry, ?_, ?_, ?_⟩
  · rw [hentry]
    exact mem_setAdd s.listeners lid
  · have hfin : (Server.serve s lid script).finalState.listeners
        = ((acceptLoop (serveEntry s lid) none script).finalState.listeners).erase lid := by
      simp [Server.serve, hc]
    rw [hfin]
    rcases acceptLoop_finalState_listeners script (serveEntry s lid) none with h | h
    · rw [h]
      exact (setAdd_nodup hl lid).not_mem_erase
    · rw [h]
      simp
  · have hev : (Server.serve s lid script).events
        = (acceptLoop (serveEntry s lid) none script).events ++ [Ev.listenerClosed lid] := by
      simp [Server.serve, hc]
    rw [hev]
    exact List.getLast?_concat _

theorem serve_listener_lifecycle_witness :
    (sOpen.closed = false ∧ sOpen.listeners.Nodup)
    ∧ ((Server.serve sOpen 9 [AcceptOutcome.externalClose]).entryState = serveEntry sOpen 9
      ∧ 9 ∈ (Server.serve sOpen 9 [AcceptOutcome.externalClose]).entryState.listeners
      ∧ 9 ∉ (Server.serve sOpen 9 [AcceptOutcome.externalClose]).finalState.listeners
      ∧ (Server.serve sOpen 9 [AcceptOutcome.externalClose]).events.getLast?
          = some (Ev.listenerClosed 9)) :=
  ⟨⟨rfl, by decide⟩, serve_listener_lifecycle sOpen rfl (by decide) 9 [AcceptOutcome.externalClose]⟩

/-- C10 counterexample: a default invocation of the module-level
`serve` (no options, so nothing suppresses the message) whose bind
fails still emits the "Listening on ..." message, because the `async`
`listenAndServe` turns the synchronous bind failure into a rejected
promise and the message is printed before that promise is awaited;
the claim requires the message to be absent whenever the bind fails. -/
theorem serve_listen_message_cex :
    (serve { port := none, hostname := none, onListenPresent := false } false 0 []).result
        = .error DenoError.AddrInUse
    ∧ (serve { port := none, hostname := none, onListenPresent := false }
        false 0 []).messageEmitted = true
    ∧ ¬ ((serve { port := none, hostname := none, onListenPresent := false }
        false 0 []).messageEmitted = false) :=
  ⟨rfl, rfl, fun h => absurd h (by decide)⟩

/-- C10 (amended): the module-level `serve` without host/port options
binds hostname "0.0.0.0" and port 8000, and the "Listening on ..."
message is emitted if and only if the options do not contain an
`onListen` key — independently of whether the bind succeeds, since a
bind failure only surfaces when the returned promise is awaited. -/
theorem serve_defaults_and_message (options : ServeOptions) (bindOk : Bool)
    (newLid : Nat) (script : List AcceptOutcome) :
    (serve options bindOk newLid script).bindHost = options.hostname.getD "0.0.0.0"
    ∧ (serve options bindOk newLid script).bindPort = options.port.getD 8000
    ∧ (serve options bindOk newLid script).messageEmitted = !options.onListenPresent
    ∧ (serve options false newLid script).result = .error DenoError.AddrInUse := by
  cases bindOk <;> exact ⟨rfl, rfl, rfl, rfl⟩
